import Mathlib

/-!
Shallow embedding of the stock-data ingestion core of the repository
(`src/services/data_ingestion/rate_limiter.py`, `fetcher.py`, `pipeline.py`)
and proofs about its specified behaviour.

Modelling conventions:
* Python floats and time values are modelled as rationals (`ℚ`); Python ints as `Int`.
* Real time is passed explicitly: every operation that reads `time.time()`
  takes the current time as an argument.
* `requests.get` outcomes are an oracle `Nat → AttemptOutcome` giving the
  outcome of each successive HTTP attempt.
* Side effects (`print`, `time.sleep`, the HTTP call itself) are recorded in
  an event trace.
* Python `dict[str, str]` is an association list with first-match lookup and
  in-place replace-or-append assignment.
-/

namespace RoaringKitty

/-! ## rate_limiter.py : TokenBucketRateLimiter -/

/-- State of `TokenBucketRateLimiter` (`rate_limiter.py`): `max_tokens`,
`refill_rate`, the current `tokens` and `last_refill_time`, all numeric
fields modelled as `ℚ`. -/
structure TokenBucketRateLimiter where
  max_tokens : ℚ
  refill_rate : ℚ
  tokens : ℚ
  last_refill_time : ℚ
  deriving Repr, DecidableEq

namespace TokenBucketRateLimiter

/-- `__init__`: start with a full bucket, `last_refill_time = time.time()`
(the construction time `now`). -/
def init (maxTokens : Int) (refillRate : ℚ) (now : ℚ) : TokenBucketRateLimiter :=
  { max_tokens := (maxTokens : ℚ)
    refill_rate := refillRate
    tokens := (maxTokens : ℚ)
    last_refill_time := now }

/-- `_refill`: add `elapsed * refill_rate` tokens, clamped to `max_tokens`,
and update `last_refill_time` to `now`. -/
def refill (l : TokenBucketRateLimiter) (now : ℚ) : TokenBucketRateLimiter :=
  let time_elapsed := now - l.last_refill_time
  let new_tokens := time_elapsed * l.refill_rate
  { l with
    tokens := min l.max_tokens (l.tokens + new_tokens)
    last_refill_time := now }

/-- `acquire(tokens=1)`: refill lazily, then take `n` tokens if
`self.tokens >= n`, returning whether the acquisition succeeded together
with the new state.  The Python code performs no validation of `n`. -/
def acquire (l : TokenBucketRateLimiter) (n : Int) (now : ℚ) :
    Bool × TokenBucketRateLimiter :=
  let l' := l.refill now
  if (n : ℚ) ≤ l'.tokens then
    (true, { l' with tokens := l'.tokens - (n : ℚ) })
  else
    (false, l')

/-- The state invariant claimed by the spec: `0 ≤ tokens ≤ max_tokens`. -/
def Inv (l : TokenBucketRateLimiter) : Prop :=
  0 ≤ l.tokens ∧ l.tokens ≤ l.max_tokens

instance (l : TokenBucketRateLimiter) : Decidable l.Inv := by
  unfold Inv; infer_instance

/-- Run a sequence of `acquire` calls; each list entry is the requested
token count paired with the time at which the call happens.  Returns the
final state; intermediate observation states are collected by
`observations`. -/
def runCalls (l : TokenBucketRateLimiter) :
    List (Int × ℚ) → TokenBucketRateLimiter
  | [] => l
  | (n, t) :: rest => runCalls (l.acquire n t).2 rest

/-- All observation points of a call sequence: for each `acquire`, the state
right after the lazy `_refill` and the state after the acquire itself. -/
def observations (l : TokenBucketRateLimiter) :
    List (Int × ℚ) → List TokenBucketRateLimiter
  | [] => []
  | (n, t) :: rest =>
      l.refill t :: (l.acquire n t).2 :: observations (l.acquire n t).2 rest

/-- Times are admissible when each call's time is no earlier than the
previous refill time (non-decreasing clock starting from the state's
`last_refill_time`). -/
def timesOk (t0 : ℚ) : List (Int × ℚ) → Prop
  | [] => True
  | (_, t) :: rest => t0 ≤ t ∧ timesOk t rest

instance timesOkDecidable (t0 : ℚ) (calls : List (Int × ℚ)) :
    Decidable (timesOk t0 calls) := by
  induction calls generalizing t0 with
  | nil => exact .isTrue trivial
  | cons c rest ih =>
      obtain ⟨n, t⟩ := c
      unfold timesOk
      exact @instDecidableAnd _ _ _ (ih t)

end TokenBucketRateLimiter

/-! ## Python `dict[str, str]` as an association list -/

/-- A Python `dict[str, str]`, modelled as an association list with unique
keys in practice; lookup returns the first binding. -/
abbrev Dict := List (String × String)

/-- `d.get(k)` / `d[k]` read access. -/
def dictGet (d : Dict) (k : String) : Option String :=
  (d.find? (fun p => p.1 == k)).map (·.2)

/-- `d[k] = v` assignment: replace the binding if the key is present,
append it otherwise. -/
def dictSet (d : Dict) (k v : String) : Dict :=
  if (d.find? (fun p => p.1 == k)).isSome then
    d.map (fun p => if p.1 == k then (k, v) else p)
  else
    d ++ [(k, v)]

/-! ## fetcher.py : StockFetcher._make_request -/

/-- The JSON body of a 200 response, abstracted to the fields the fetcher
inspects: the `"Error Message"` and `"Note"` keys (with their values) and
an opaque remainder. -/
structure JsonBody where
  errorMessage : Option String := none
  note : Option String := none
  payload : String := ""
  deriving Repr, DecidableEq

/-- Outcome of one `requests.get` call: a response with a status code and
(parsed) body, a transport timeout, or another request exception. -/
inductive AttemptOutcome where
  | response (statusCode : Nat) (body : JsonBody)
  | timeout
  | requestException (msg : String)
  deriving Repr, DecidableEq

/-- Observable side effects of `_make_request`, in order. -/
inductive Event where
  | sleepRateLimiter            -- `time.sleep(0.5)` while polling the bucket
  | httpCall                    -- `requests.get(...)`
  | printed (s : String)        -- `print(...)`
  | sleepCooldown (d : Nat)     -- `time.sleep(60)` on an in-band "Note"
  | sleepBackoff (d : Nat)      -- `time.sleep(delay)` exponential backoff
  deriving Repr, DecidableEq

/-- How the body of one loop iteration of `_make_request` exits, with the
events it emits after the HTTP call itself. -/
inductive StepOut where
  | retSuccess (b : JsonBody) (evts : List Event)  -- `return data`
  | retError (evts : List Event)                   -- `return None` ("Error Message")
  | contNote (evts : List Event)                   -- `continue` ("Note": sleep 60)
  | fallBackoff (evts : List Event)                -- fall through to the backoff
  deriving Repr, DecidableEq

/-- One iteration body of the retry loop (`fetcher.py` lines 61–95),
classified by how it leaves the iteration.  `"Error Message"` is checked
before `"Note"`, both only on a 200 response. -/
def attemptStep (o : AttemptOutcome) (attempt : Nat) : StepOut :=
  match o with
  | .response code body =>
      if code = 200 then
        match body.errorMessage with
        | some msg => .retError [.printed ("API Error: " ++ msg)]
        | none =>
          match body.note with
          | some note =>
              .contNote [.printed ("Rate limit warning: " ++ note), .sleepCooldown 60]
          | none => .retSuccess body []
      else if code = 429 then
        .fallBackoff [.printed "Rate limited by API (429)"]
      else
        .fallBackoff [.printed ("HTTP Error: " ++ toString code)]
  | .timeout =>
      .fallBackoff [.printed ("Request timeout (attempt " ++ toString (attempt + 1) ++ ")")]
  | .requestException msg =>
      .fallBackoff [.printed ("Request failed: " ++ msg)]

/-- The retry loop of `_make_request`.  `outcomes i` is what the `i`-th
`requests.get` returns; `rlWaits i` is how many times the rate-limiter
polling loop sleeps before attempt `i`.  `fuel` is the number of loop
iterations left (`maxRetries - attempt`); when it reaches 0 the `for`
loop is exhausted and the function prints and returns `None`. -/
def makeRequestLoop (outcomes : Nat → AttemptOutcome) (rlWaits : Nat → Nat)
    (maxRetries baseDelay : Nat) : Nat → Nat → Option JsonBody × List Event
  | 0, _ => (none, [.printed "All retries failed"])
  | fuel + 1, attempt =>
    let pre := List.replicate (rlWaits attempt) Event.sleepRateLimiter ++ [Event.httpCall]
    match attemptStep (outcomes attempt) attempt with
    | .retSuccess b e => (some b, pre ++ e)
    | .retError e => (none, pre ++ e)
    | .contNote e =>
        let r := makeRequestLoop outcomes rlWaits maxRetries baseDelay fuel (attempt + 1)
        (r.1, pre ++ e ++ r.2)
    | .fallBackoff e =>
        let delay := baseDelay * 2 ^ attempt
        let msg := "Retrying in " ++ toString delay ++ " seconds... (attempt " ++
          toString (attempt + 1) ++ "/" ++ toString maxRetries ++ ")"
        let r := makeRequestLoop outcomes rlWaits maxRetries baseDelay fuel (attempt + 1)
        (r.1, pre ++ e ++ [.printed msg, .sleepBackoff delay] ++ r.2)

/-- Result of `_make_request`: the returned value, the event trace, and the
caller's `params` dict as it stands after the call (the function mutates it
in place). -/
structure RequestResult where
  result : Option JsonBody
  trace : List Event
  params : Dict
  deriving Repr, DecidableEq

/-- `StockFetcher._make_request`: insert the API key into `params`, then run
the retry loop with `max_retries = 5`, `base_delay = 1`. -/
def make_request (apiKey : String) (params : Dict)
    (outcomes : Nat → AttemptOutcome) (rlWaits : Nat → Nat) : RequestResult :=
  let params' := dictSet params "apikey" apiKey
  let r := makeRequestLoop outcomes rlWaits 5 1 5 0
  ⟨r.1, r.2, params'⟩

/-- Number of remote HTTP calls recorded in a trace. -/
def callCount (t : List Event) : Nat :=
  t.countP (fun e => e == Event.httpCall)

/-- The retry-related sleeps of a trace (both the exponential backoff and
the fixed 60-unit cooldown), in order, excluding rate-limiter polling. -/
def retryDelays (t : List Event) : List Nat :=
  t.filterMap (fun e =>
    match e with
    | .sleepBackoff d => some d
    | .sleepCooldown d => some d
    | _ => none)

/-- Number of fixed-cooldown sleeps (`time.sleep(60)` on a "Note") in a
trace. -/
def cooldownCount (t : List Event) : Nat :=
  t.countP (fun e => match e with | .sleepCooldown _ => true | _ => false)

/-- An outcome that takes the exponential-backoff path of the loop: a
transport timeout, a request exception, or any non-200 HTTP status
(including 429).  A 200 response never does: it returns, errors out, or
takes the `continue`-after-cooldown path. -/
def retryableViaBackoff : AttemptOutcome → Bool
  | .response code _ => !(code == 200)
  | .timeout => true
  | .requestException _ => true

/-! ## Python numeric literal parsing (`int(s)`, `float(s)`) -/

/-- Value of a non-empty all-digit character list; `none` otherwise.
Models the digit-sequence core of Python numeric parsing. -/
def digitsVal : List Char → Option Nat
  | [] => none
  | cs =>
      if cs.all Char.isDigit then
        some (cs.foldl (fun a c => a * 10 + (c.toNat - 48)) 0)
      else
        none

/-- Python `int(s)` on a decimal literal: optional sign followed by one or
more digits; anything else raises `ValueError`, modelled as `none`. -/
def pyInt (s : String) : Option Int :=
  match s.toList with
  | '-' :: rest => (digitsVal rest).map (fun n => -(n : Int))
  | '+' :: rest => (digitsVal rest).map (fun n => (n : Int))
  | cs => (digitsVal cs).map (fun n => (n : Int))

/-- Core of `float(s)` after the sign: digits with an optional decimal
point (`"12"`, `"12.5"`, `".5"`, `"5."`); the value is exact in `ℚ`. -/
def pyFloatCore (cs : List Char) : Option ℚ :=
  let intPart := cs.takeWhile Char.isDigit
  let rest := cs.dropWhile Char.isDigit
  match rest with
  | [] => (digitsVal intPart).map (fun n => (n : ℚ))
  | '.' :: fracPart =>
      if fracPart.all Char.isDigit ∧ (intPart ≠ [] ∨ fracPart ≠ []) then
        some ((((digitsVal intPart).getD 0 : ℚ)) +
          ((digitsVal fracPart).getD 0 : ℚ) / (10 : ℚ) ^ fracPart.length)
      else
        none
  | _ => none

/-- Python `float(s)` on a plain decimal literal: optional sign, then
digits with an optional decimal point; invalid literals raise
`ValueError`, modelled as `none`. -/
def pyFloat (s : String) : Option ℚ :=
  match s.toList with
  | '-' :: rest => (pyFloatCore rest).map Neg.neg
  | '+' :: rest => pyFloatCore rest
  | cs => pyFloatCore cs

/-! ## pipeline.py : transforms -/

/-- A transient `Stock` object as built by `transform_stock` (before the
database assigns an id). -/
structure Stock where
  ticker : String
  name : String
  sector : Option String
  market_cap : Option Int
  deriving Repr, DecidableEq

/-- `StockDataPipeline.transform_stock` (`pipeline.py` lines 69–100):
`company_data` is `None` or a dict; a falsy value (None / empty dict)
yields `None`.  `market_cap_str = company_data.get("MarketCapitalization",
"0")`; `market_cap = int(market_cap_str) if market_cap_str else None`; a
raise from `int` is caught and yields `None` for the whole record. -/
def transform_stock (symbol : String) (company_data : Option Dict) : Option Stock :=
  match company_data with
  | none => none
  | some d =>
    if d.isEmpty then
      none
    else
      let market_cap_str := (dictGet d "MarketCapitalization").getD "0"
      if market_cap_str = "" then
        some { ticker := symbol
               name := (dictGet d "Name").getD symbol
               sector := dictGet d "Sector"
               market_cap := none }
      else
        match pyInt market_cap_str with
        | some v =>
            some { ticker := symbol
                   name := (dictGet d "Name").getD symbol
                   sector := dictGet d "Sector"
                   market_cap := some v }
        | none => none

/-- A `Fundamental` record as built by `transform_fundamental`; the quarter
label and `reported_at` come from `datetime.now()` at transform time,
passed in explicitly. -/
structure Fundamental where
  stock_id : Int
  quarter : String
  revenue : Int
  net_income : Int
  eps : Option ℚ
  pe_ratio : Option ℚ
  debt_to_equity : Option ℚ
  reported_at : ℚ
  deriving Repr, DecidableEq

/-- The `safe_float` helper of `transform_fundamental`:
`float(value) if value and value != "None" else None`, with any raise from
`float` caught and mapped to the default `None`. -/
def safe_float (value : Option String) : Option ℚ :=
  match value with
  | none => none
  | some s => if s = "" then none else if s = "None" then none else pyFloat s

/-- `int(company_data.get(k, 0) or 0)` as used for the `revenue` and
`net_income` fields: a missing key or empty string yields `0`; any other
string goes through `int(...)`, whose raise (`none`) fails the whole
record. -/
def intOrZeroField (d : Dict) (k : String) : Option Int :=
  match dictGet d k with
  | none => some 0
  | some s => if s = "" then some 0 else pyInt s

/-- `StockDataPipeline.transform_fundamental` (`pipeline.py` lines
132–166).  `year`/`month` and `now` stand for `datetime.now()` at
transform time.  A raise while building the record (only possible in the
two `int(...)` conversions) is caught and yields `None`. -/
def transform_fundamental (stock_id : Int) (company_data : Option Dict)
    (year month : Nat) (now : ℚ) : Option Fundamental :=
  match company_data with
  | none => none
  | some d =>
    if d.isEmpty then
      none
    else
      match intOrZeroField d "RevenueTTM", intOrZeroField d "GrossProfitTTM" with
      | some rev, some ni =>
          some { stock_id := stock_id
                 quarter := toString year ++ "-Q" ++ toString ((month - 1) / 3 + 1)
                 revenue := rev
                 net_income := ni
                 eps := safe_float (dictGet d "EPS")
                 pe_ratio := safe_float (dictGet d "PERatio")
                 debt_to_equity := safe_float (dictGet d "DebtToEquityRatio")
                 reported_at := now }
      | _, _ => none

/-! ## pipeline.py : load_stock (entity upsert) -/

/-- A persisted row of the `stocks` table; `id` is the primary key the
store assigned. -/
structure StockRow where
  id : Nat
  ticker : String
  name : String
  sector : Option String
  market_cap : Option Int
  deriving Repr, DecidableEq

/-- The relevant slice of the relational store: the `stocks` rows and the
next auto-increment id. -/
structure DB where
  rows : List StockRow
  nextId : Nat
  deriving Repr, DecidableEq

/-- `StockDataPipeline.load_stock` (`pipeline.py` lines 170–203), happy
path: `session.query(Stock).filter_by(ticker=...).first()`; if found,
overwrite `name`, `sector`, `market_cap` of that row (identified by its
primary key) and return its id; otherwise insert a new row with the next
auto-increment id and return it. -/
def load_stock (db : DB) (s : Stock) : Option Nat × DB :=
  match db.rows.find? (fun r => r.ticker == s.ticker) with
  | some existing =>
      (some existing.id,
        { db with rows := db.rows.map (fun r =>
            if r.id == existing.id then
              { r with name := s.name, sector := s.sector, market_cap := s.market_cap }
            else r) })
  | none =>
      (some db.nextId,
        { rows := db.rows ++ [⟨db.nextId, s.ticker, s.name, s.sector, s.market_cap⟩]
          nextId := db.nextId + 1 })

/-! ## pipeline.py : run (batch loop) -/

/-- The `results` dict of `StockDataPipeline.run`. -/
structure RunResults where
  success : List String
  failed : List String
  deriving Repr, DecidableEq

/-- One iteration of the `for symbol in symbols` loop of `run`:
`process_single_stock(symbol.upper())` is an oracle that either returns a
Bool or raises (`Except.error`); the original `symbol` is appended to
`success` on `True` and to `failed` on `False` or on any exception. -/
def runStep (proc : String → Except String Bool) (acc : RunResults)
    (symbol : String) : RunResults :=
  match proc symbol.toUpper with
  | .ok true => { acc with success := acc.success ++ [symbol] }
  | .ok false => { acc with failed := acc.failed ++ [symbol] }
  | .error _ => { acc with failed := acc.failed ++ [symbol] }

/-- The `for` loop of `run`, threading the accumulated results. -/
def runLoop (proc : String → Except String Bool) :
    RunResults → List String → RunResults
  | acc, [] => acc
  | acc, symbol :: rest => runLoop proc (runStep proc acc symbol) rest

/-- `StockDataPipeline.run` (`pipeline.py` lines 293–325): iterate the
symbols, isolating each one's failure, and return the accumulated report.
The Lean function is total: no exception escapes the loop. -/
def run (proc : String → Except String Bool) (symbols : List String) : RunResults :=
  runLoop proc ⟨[], []⟩ symbols

/-! ## Proofs about the rate limiter -/

namespace TokenBucketRateLimiter

lemma refill_inv (l : TokenBucketRateLimiter) (now : ℚ)
    (hr : 0 ≤ l.refill_rate) (ht : l.last_refill_time ≤ now) (h : l.Inv) :
    (l.refill now).Inv := by
  obtain ⟨h0, h1⟩ := h
  refine ⟨le_min (h0.trans h1) ?_, min_le_left _ _⟩
  exact add_nonneg h0 (mul_nonneg (sub_nonneg.2 ht) hr)

lemma acquire_inv (l : TokenBucketRateLimiter) (n : Int) (now : ℚ)
    (hn : 0 ≤ (n : ℚ)) (hr : 0 ≤ l.refill_rate) (ht : l.last_refill_time ≤ now)
    (h : l.Inv) : ((l.acquire n now).2).Inv := by
  have hR := refill_inv l now hr ht h
  simp only [acquire]
  by_cases hle : (n : ℚ) ≤ (l.refill now).tokens
  · rw [if_pos hle]
    exact ⟨sub_nonneg.2 hle, le_trans (sub_le_self _ hn) hR.2⟩
  · rw [if_neg hle]
    exact hR

lemma acquire_fields (l : TokenBucketRateLimiter) (n : Int) (now : ℚ) :
    ((l.acquire n now).2).max_tokens = l.max_tokens ∧
    ((l.acquire n now).2).refill_rate = l.refill_rate ∧
    ((l.acquire n now).2).last_refill_time = now := by
  simp only [acquire]
  by_cases hle : (n : ℚ) ≤ (l.refill now).tokens
  · rw [if_pos hle]
    exact ⟨rfl, rfl, rfl⟩
  · rw [if_neg hle]
    exact ⟨rfl, rfl, rfl⟩

lemma observations_inv (calls : List (Int × ℚ)) :
    ∀ (l : TokenBucketRateLimiter), l.Inv → 0 ≤ l.refill_rate →
      (∀ c ∈ calls, 0 < c.1) → timesOk l.last_refill_time calls →
      ∀ x ∈ l.observations calls, x.Inv := by
  induction calls with
  | nil =>
      intro l _ _ _ _ x hx
      simp [observations] at hx
  | cons c rest ih =>
      intro l hInv hr hn ht x hx
      obtain ⟨n, t⟩ := c
      obtain ⟨ht1, ht2⟩ := ht
      have hn0 : (0 : ℚ) ≤ (n : ℚ) := by
        exact_mod_cast (hn _ (List.mem_cons_self _ _)).le
      simp only [observations, List.mem_cons] at hx
      rcases hx with rfl | rfl | hx
      · exact refill_inv l t hr ht1 hInv
      · exact acquire_inv l n t hn0 hr ht1 hInv
      · refine ih (l.acquire n t).2 (acquire_inv l n t hn0 hr ht1 hInv) ?_ ?_ ?_ x hx
        · rw [(acquire_fields l n t).2.1]; exact hr
        · intro c hc; exact hn c (List.mem_cons_of_mem _ hc)
        · rw [(acquire_fields l n t).2.2]; exact ht2

end TokenBucketRateLimiter

/-- C4: for a bucket initialised with capacity `C > 0` and refill rate
`r ≥ 0`, any sequence of `acquire(n)` calls with positive `n` at
non-decreasing times keeps `0 ≤ tokens ≤ max_tokens` at every observation
point (after each lazy refill and after each acquire). -/
theorem tokenBucket_invariant (maxTokens : Int) (rate t0 : ℚ)
    (calls : List (Int × ℚ)) (hC : 0 < maxTokens) (hr : 0 ≤ rate)
    (hn : ∀ c ∈ calls, 0 < c.1)
    (ht : TokenBucketRateLimiter.timesOk t0 calls) :
    ∀ x ∈ (TokenBucketRateLimiter.init maxTokens rate t0).observations calls,
      x.Inv := by
  refine TokenBucketRateLimiter.observations_inv calls _ ?_ hr hn ht
  have h0 : (0 : ℚ) ≤ (maxTokens : ℚ) := by exact_mod_cast hC.le
  exact ⟨h0, le_refl _⟩

/-- Witness for C4 at capacity 5, rate 2, four calls. -/
theorem tokenBucket_invariant_witness :
    (0 : Int) < 5 ∧ (0 : ℚ) ≤ 2 ∧
    (∀ c ∈ [((1 : Int), (0 : ℚ)), (3, 0), (2, 0), (2, 1)], 0 < c.1) ∧
    TokenBucketRateLimiter.timesOk 0 [((1 : Int), (0 : ℚ)), (3, 0), (2, 0), (2, 1)] ∧
    ∀ x ∈ (TokenBucketRateLimiter.init 5 2 0).observations
        [((1 : Int), (0 : ℚ)), (3, 0), (2, 0), (2, 1)], x.Inv :=
  ⟨by decide, by norm_num, by decide,
    by norm_num [TokenBucketRateLimiter.timesOk],
    tokenBucket_invariant 5 2 0 _ (by decide) (by norm_num) (by decide)
      (by norm_num [TokenBucketRateLimiter.timesOk])⟩

/-- C5 counterexample: `acquire(-3)` on a fresh bucket of capacity 5 is not
rejected as invalid input: the call goes through the normal path, reports
success, and leaves 8 tokens — above capacity.  There is no input-error
path in `acquire` at all. -/
theorem acquire_nonpositive_counterexample :
    ((TokenBucketRateLimiter.init 5 1 0).acquire (-3) 0).1 = true ∧
    ((TokenBucketRateLimiter.init 5 1 0).acquire (-3) 0).2.tokens = 8 := by
  norm_num [TokenBucketRateLimiter.acquire, TokenBucketRateLimiter.refill,
    TokenBucketRateLimiter.init]

/-- C5 amended: a call `acquire(n)` with `n ≤ 0` is not rejected; it always
succeeds (after the lazy refill the bucket holds at least `0 ≥ n` tokens)
and subtracts `n`, so a negative `n` increases the token count. -/
theorem acquire_nonpositive_succeeds (l : TokenBucketRateLimiter) (n : Int)
    (now : ℚ) (hn : n ≤ 0) (hInv : l.Inv) (hr : 0 ≤ l.refill_rate)
    (ht : l.last_refill_time ≤ now) :
    (l.acquire n now).1 = true ∧
    (l.acquire n now).2.tokens = (l.refill now).tokens - (n : ℚ) := by
  have hR := TokenBucketRateLimiter.refill_inv l now hr ht hInv
  have hle : (n : ℚ) ≤ (l.refill now).tokens := by
    refine le_trans ?_ hR.1
    exact_mod_cast hn
  simp only [TokenBucketRateLimiter.acquire]
  rw [if_pos hle]
  exact ⟨rfl, rfl⟩

/-! ## Proofs about the fetcher -/

lemma callCount_append (t1 t2 : List Event) :
    callCount (t1 ++ t2) = callCount t1 + callCount t2 := by
  simp [callCount, List.countP_append]

lemma callCount_replicate_rl (k : Nat) :
    callCount (List.replicate k Event.sleepRateLimiter) = 0 := by
  induction k with
  | zero => rfl
  | succ k ih => simp [callCount, List.replicate_succ, List.countP_cons] at ih ⊢

lemma retryDelays_append (t1 t2 : List Event) :
    retryDelays (t1 ++ t2) = retryDelays t1 ++ retryDelays t2 := by
  simp [retryDelays]

lemma retryDelays_replicate_rl (k : Nat) :
    retryDelays (List.replicate k Event.sleepRateLimiter) = [] := by
  induction k with
  | zero => rfl
  | succ k ih => simp [retryDelays, List.replicate_succ] at ih ⊢

lemma attemptStep_retryable (o : AttemptOutcome) (attempt : Nat)
    (h : retryableViaBackoff o = true) :
    ∃ s, attemptStep o attempt = .fallBackoff [.printed s] := by
  cases o with
  | response code body =>
      have hne : ¬code = 200 := by simpa [retryableViaBackoff] using h
      by_cases h429 : code = 429
      · exact ⟨"Rate limited by API (429)", by simp [attemptStep, hne, h429]⟩
      · exact ⟨"HTTP Error: " ++ toString code, by simp [attemptStep, hne, h429]⟩
  | timeout => exact ⟨_, rfl⟩
  | requestException msg => exact ⟨_, rfl⟩

lemma makeRequestLoop_retryable (outcomes : Nat → AttemptOutcome)
    (rlWaits : Nat → Nat) (M B : Nat) :
    ∀ fuel attempt,
      (∀ i, attempt ≤ i → i < attempt + fuel →
        retryableViaBackoff (outcomes i) = true) →
      (makeRequestLoop outcomes rlWaits M B fuel attempt).1 = none ∧
      callCount (makeRequestLoop outcomes rlWaits M B fuel attempt).2 = fuel ∧
      retryDelays (makeRequestLoop outcomes rlWaits M B fuel attempt).2 =
        (List.range fuel).map (fun j => B * 2 ^ (attempt + j)) := by
  intro fuel
  induction fuel with
  | zero => intro attempt _; exact ⟨rfl, rfl, rfl⟩
  | succ fuel ih =>
    intro attempt h
    obtain ⟨s, hs⟩ := attemptStep_retryable (outcomes attempt) attempt
      (h attempt (by omega) (by omega))
    obtain ⟨ih1, ih2, ih3⟩ := ih (attempt + 1) (fun i h1 h2 => h i (by omega) (by omega))
    simp only [makeRequestLoop, hs]
    refine ⟨ih1, ?_, ?_⟩
    · simp only [callCount_append, callCount_replicate_rl, ih2]
      simp [callCount, List.countP_cons]
      omega
    · simp only [retryDelays_append, retryDelays_replicate_rl, ih3]
      simp only [retryDelays, List.filterMap_cons, List.filterMap_nil]
      simp only [List.nil_append, List.append_nil]
      have hfun : ((fun j => B * 2 ^ (attempt + j)) ∘ Nat.succ) =
          (fun j => B * 2 ^ (attempt + 1 + j)) := by
        funext j
        show B * 2 ^ (attempt + (j + 1)) = B * 2 ^ (attempt + 1 + j)
        have harg : attempt + (j + 1) = attempt + 1 + j := by omega
        rw [harg]
      rw [List.range_succ_eq_map, List.map_cons, List.map_map, hfun]
      simp

/-- Witness for C5's amended theorem at the counterexample input. -/
theorem acquire_nonpositive_succeeds_witness :
    (-3 : Int) ≤ 0 ∧ (TokenBucketRateLimiter.init 5 1 0).Inv ∧
    (0 : ℚ) ≤ (TokenBucketRateLimiter.init 5 1 0).refill_rate ∧
    (TokenBucketRateLimiter.init 5 1 0).last_refill_time ≤ 0 ∧
    (((TokenBucketRateLimiter.init 5 1 0).acquire (-3) 0).1 = true ∧
      ((TokenBucketRateLimiter.init 5 1 0).acquire (-3) 0).2.tokens =
        ((TokenBucketRateLimiter.init 5 1 0).refill 0).tokens - ((-3 : Int) : ℚ)) :=
  ⟨by decide,
    by norm_num [TokenBucketRateLimiter.Inv, TokenBucketRateLimiter.init],
    by norm_num [TokenBucketRateLimiter.init],
    by norm_num [TokenBucketRateLimiter.init],
    acquire_nonpositive_succeeds _ _ _ (by decide)
      (by norm_num [TokenBucketRateLimiter.Inv, TokenBucketRateLimiter.init])
      (by norm_num [TokenBucketRateLimiter.init])
      (by norm_num [TokenBucketRateLimiter.init])⟩

lemma makeRequestLoop_note (outcomes : Nat → AttemptOutcome) (rlWaits : Nat → Nat)
    (M B fuel attempt : Nat) (note p : String)
    (h : outcomes attempt = .response 200 ⟨none, some note, p⟩) :
    makeRequestLoop outcomes rlWaits M B (fuel + 1) attempt =
      ((makeRequestLoop outcomes rlWaits M B fuel (attempt + 1)).1,
        List.replicate (rlWaits attempt) Event.sleepRateLimiter ++
        Event.httpCall :: Event.printed ("Rate limit warning: " ++ note) ::
        Event.sleepCooldown 60 ::
        (makeRequestLoop outcomes rlWaits M B fuel (attempt + 1)).2) := by
  simp [makeRequestLoop, h, attemptStep]

lemma makeRequestLoop_429 (outcomes : Nat → AttemptOutcome) (rlWaits : Nat → Nat)
    (M B fuel attempt : Nat) (body : JsonBody)
    (h : outcomes attempt = .response 429 body) :
    makeRequestLoop outcomes rlWaits M B (fuel + 1) attempt =
      ((makeRequestLoop outcomes rlWaits M B fuel (attempt + 1)).1,
        List.replicate (rlWaits attempt) Event.sleepRateLimiter ++
        Event.httpCall :: Event.printed "Rate limited by API (429)" ::
        Event.printed ("Retrying in " ++ toString (B * 2 ^ attempt) ++
          " seconds... (attempt " ++ toString (attempt + 1) ++ "/" ++ toString M ++ ")") ::
        Event.sleepBackoff (B * 2 ^ attempt) ::
        (makeRequestLoop outcomes rlWaits M B fuel (attempt + 1)).2) := by
  simp [makeRequestLoop, h, attemptStep]

lemma makeRequestLoop_error (outcomes : Nat → AttemptOutcome) (rlWaits : Nat → Nat)
    (M B fuel attempt : Nat) (msg p : String) (note? : Option String)
    (h : outcomes attempt = .response 200 ⟨some msg, note?, p⟩) :
    makeRequestLoop outcomes rlWaits M B (fuel + 1) attempt =
      (none, List.replicate (rlWaits attempt) Event.sleepRateLimiter ++
        [Event.httpCall, Event.printed ("API Error: " ++ msg)]) := by
  simp [makeRequestLoop, h, attemptStep]

lemma makeRequestLoop_trace_head (outcomes : Nat → AttemptOutcome)
    (rlWaits : Nat → Nat) (M B fuel attempt : Nat) :
    ∃ rest, (makeRequestLoop outcomes rlWaits M B (fuel + 1) attempt).2 =
      List.replicate (rlWaits attempt) Event.sleepRateLimiter ++
        Event.httpCall :: rest := by
  cases hstep : attemptStep (outcomes attempt) attempt with
  | retSuccess b e => exact ⟨e, by simp [makeRequestLoop, hstep]⟩
  | retError e => exact ⟨e, by simp [makeRequestLoop, hstep]⟩
  | contNote e =>
      exact ⟨e ++ (makeRequestLoop outcomes rlWaits M B fuel (attempt + 1)).2,
        by simp [makeRequestLoop, hstep]⟩
  | fallBackoff e =>
      refine ⟨e ++ [Event.printed ("Retrying in " ++ toString (B * 2 ^ attempt) ++
          " seconds... (attempt " ++ toString (attempt + 1) ++ "/" ++ toString M ++ ")"),
          Event.sleepBackoff (B * 2 ^ attempt)] ++
        (makeRequestLoop outcomes rlWaits M B fuel (attempt + 1)).2,
        by simp [makeRequestLoop, hstep]⟩

/-- C1 counterexample: when every attempt answers with HTTP status 429, the
fetcher never sleeps the 60-unit cooldown at all — it goes straight to the
exponential backoff (delays 1, 2, 4, 8, 16) for all five remote calls — so
a 429 does not trigger the fixed cooldown before the next attempt. -/
theorem throttle_cooldown_counterexample :
    callCount (make_request "KEY" []
      (fun _ => .response 429 {}) (fun _ => 0)).trace = 5 ∧
    cooldownCount (make_request "KEY" []
      (fun _ => .response 429 {}) (fun _ => 0)).trace = 0 ∧
    retryDelays (make_request "KEY" []
      (fun _ => .response 429 {}) (fun _ => 0)).trace = [1, 2, 4, 8, 16] := by
  refine ⟨by decide, by decide, by decide⟩

/-- C1 amended: only the in-band throttle notice (a 200 body containing
`"Note"`) triggers the fixed 60-unit cooldown, after which the loop
proceeds directly to the next attempt, skipping the exponential delay for
that attempt; an HTTP 429 response triggers no cooldown and goes straight
to the exponential-delay retry before the next attempt. -/
theorem throttle_cooldown_amended (apiKey : String) (params : Dict)
    (outcomes : Nat → AttemptOutcome) (rlWaits : Nat → Nat) :
    (∀ note p, outcomes 0 = .response 200 ⟨none, some note, p⟩ →
      ∃ rest, (make_request apiKey params outcomes rlWaits).trace =
        List.replicate (rlWaits 0) Event.sleepRateLimiter ++
        Event.httpCall :: Event.printed ("Rate limit warning: " ++ note) ::
        Event.sleepCooldown 60 ::
        (List.replicate (rlWaits 1) Event.sleepRateLimiter ++
          Event.httpCall :: rest)) ∧
    (∀ body, outcomes 0 = .response 429 body →
      ∃ rest, (make_request apiKey params outcomes rlWaits).trace =
        List.replicate (rlWaits 0) Event.sleepRateLimiter ++
        Event.httpCall :: Event.printed "Rate limited by API (429)" ::
        Event.printed "Retrying in 1 seconds... (attempt 1/5)" ::
        Event.sleepBackoff 1 ::
        (List.replicate (rlWaits 1) Event.sleepRateLimiter ++
          Event.httpCall :: rest)) := by
  constructor
  · intro note p h
    obtain ⟨rest, hrest⟩ := makeRequestLoop_trace_head outcomes rlWaits 5 1 3 1
    refine ⟨rest, ?_⟩
    show (makeRequestLoop outcomes rlWaits 5 1 5 0).2 = _
    rw [makeRequestLoop_note outcomes rlWaits 5 1 4 0 note p h]
    rw [hrest]
  · intro body h
    obtain ⟨rest, hrest⟩ := makeRequestLoop_trace_head outcomes rlWaits 5 1 3 1
    refine ⟨rest, ?_⟩
    show (makeRequestLoop outcomes rlWaits 5 1 5 0).2 = _
    rw [makeRequestLoop_429 outcomes rlWaits 5 1 4 0 body h]
    rw [hrest]
    rfl

/-- Witness for C1's amended theorem: first attempt answers 200 with a
`"Note"` body; the trace starts with the call, the warning, the 60-unit
cooldown, and directly the second call. -/
theorem throttle_cooldown_amended_witness :
    ((fun _ => AttemptOutcome.response 200 ⟨none, some "busy", ""⟩) 0 =
      AttemptOutcome.response 200 ⟨none, some "busy", ""⟩) ∧
    ∃ rest, (make_request "KEY" []
        (fun _ => .response 200 ⟨none, some "busy", ""⟩) (fun _ => 0)).trace =
      List.replicate 0 Event.sleepRateLimiter ++
      Event.httpCall :: Event.printed ("Rate limit warning: " ++ "busy") ::
      Event.sleepCooldown 60 ::
      (List.replicate 0 Event.sleepRateLimiter ++ Event.httpCall :: rest) :=
  ⟨rfl, (throttle_cooldown_amended "KEY" []
    (fun _ => .response 200 ⟨none, some "busy", ""⟩) (fun _ => 0)).1 "busy" "" rfl⟩

/-- C2: when every issued attempt fails via the exponential-backoff path
(timeout, request exception, or a non-200 status), `_make_request` with
`max_retries = 5`, `base_delay = 1` makes exactly 5 remote calls (hence no
more than 5), the retry-schedule sleeps are exactly 1, 2, 4, 8, 16 time
units, and the call reports failure. -/
theorem backoff_schedule (apiKey : String) (params : Dict)
    (outcomes : Nat → AttemptOutcome) (rlWaits : Nat → Nat)
    (h : ∀ i, i < 5 → retryableViaBackoff (outcomes i) = true) :
    (make_request apiKey params outcomes rlWaits).result = none ∧
    callCount (make_request apiKey params outcomes rlWaits).trace = 5 ∧
    retryDelays (make_request apiKey params outcomes rlWaits).trace =
      [1, 2, 4, 8, 16] := by
  obtain ⟨h1, h2, h3⟩ := makeRequestLoop_retryable outcomes rlWaits 5 1 5 0
    (fun i _ hi => h i (by omega))
  exact ⟨h1, h2, h3.trans (by decide)⟩

/-- Witness for C2: every attempt times out. -/
theorem backoff_schedule_witness :
    (∀ i, i < 5 →
      retryableViaBackoff ((fun _ => AttemptOutcome.timeout) i) = true) ∧
    (make_request "KEY" [] (fun _ => .timeout) (fun _ => 0)).result = none ∧
    callCount (make_request "KEY" [] (fun _ => .timeout) (fun _ => 0)).trace = 5 ∧
    retryDelays (make_request "KEY" [] (fun _ => .timeout) (fun _ => 0)).trace =
      [1, 2, 4, 8, 16] :=
  ⟨fun _ _ => rfl,
    backoff_schedule "KEY" [] (fun _ => .timeout) (fun _ => 0) (fun _ _ => rfl)⟩

/-- C3: if an attempt's 200 response body contains the `"Error Message"`
field, `_make_request` returns `None` right there: exactly one remote call
happens in the whole invocation, nothing follows the error report in the
trace, and the error message is printed for the caller. -/
theorem error_message_terminal (apiKey : String) (params : Dict)
    (outcomes : Nat → AttemptOutcome) (rlWaits : Nat → Nat)
    (msg p : String) (note? : Option String)
    (h : outcomes 0 = .response 200 ⟨some msg, note?, p⟩) :
    (make_request apiKey params outcomes rlWaits).result = none ∧
    callCount (make_request apiKey params outcomes rlWaits).trace = 1 ∧
    (make_request apiKey params outcomes rlWaits).trace =
      List.replicate (rlWaits 0) Event.sleepRateLimiter ++
        [Event.httpCall, Event.printed ("API Error: " ++ msg)] := by
  have heq := makeRequestLoop_error outcomes rlWaits 5 1 4 0 msg p note? h
  refine ⟨?_, ?_, ?_⟩
  · show (makeRequestLoop outcomes rlWaits 5 1 5 0).1 = none
    rw [heq]
  · show callCount (makeRequestLoop outcomes rlWaits 5 1 5 0).2 = 1
    rw [heq, callCount_append, callCount_replicate_rl]
    rfl
  · show (makeRequestLoop outcomes rlWaits 5 1 5 0).2 = _
    rw [heq]

/-- Witness for C3: the first attempt returns an in-band error payload. -/
theorem error_message_terminal_witness :
    ((fun _ => AttemptOutcome.response 200 ⟨some "Invalid API call", none, ""⟩) 0 =
      AttemptOutcome.response 200 ⟨some "Invalid API call", none, ""⟩) ∧
    (make_request "KEY" []
      (fun _ => .response 200 ⟨some "Invalid API call", none, ""⟩)
      (fun _ => 0)).result = none ∧
    callCount (make_request "KEY" []
      (fun _ => .response 200 ⟨some "Invalid API call", none, ""⟩)
      (fun _ => 0)).trace = 1 ∧
    (make_request "KEY" []
      (fun _ => .response 200 ⟨some "Invalid API call", none, ""⟩)
      (fun _ => 0)).trace =
      List.replicate 0 Event.sleepRateLimiter ++
        [Event.httpCall, Event.printed ("API Error: " ++ "Invalid API call")] :=
  ⟨rfl, error_message_terminal "KEY" []
    (fun _ => .response 200 ⟨some "Invalid API call", none, ""⟩) (fun _ => 0)
    "Invalid API call" "" none rfl⟩

lemma dictGet_map_set (d : Dict) (k v : String)
    (h : (d.find? (fun q => q.1 == k)).isSome = true) :
    dictGet (d.map (fun q => if q.1 == k then (k, v) else q)) k = some v := by
  induction d with
  | nil => simp at h
  | cons q rest ih =>
      by_cases hk : (q.1 == k) = true
      · rw [List.map_cons, if_pos hk]
        simp only [dictGet]
        rw [List.find?_cons_of_pos _ (by simp)]
        rfl
      · have h' : (rest.find? (fun q => q.1 == k)).isSome = true := by
          rw [List.find?_cons_of_neg (p := fun r : String × String => r.1 == k) rest hk] at h
          exact h
        have hrec := ih h'
        simp only [dictGet] at hrec ⊢
        rw [List.map_cons, if_neg hk,
          List.find?_cons_of_neg (p := fun r : String × String => r.1 == k) _ hk]
        exact hrec

lemma dictGet_append_last (d : Dict) (k v : String)
    (h : (d.find? (fun q => q.1 == k)) = none) :
    dictGet (d ++ [(k, v)]) k = some v := by
  induction d with
  | nil => simp [dictGet]
  | cons q rest ih =>
      have hk : ¬((q.1 == k) = true) := by
        intro hc
        rw [List.find?_cons_of_pos (p := fun r : String × String => r.1 == k) rest hc] at h
        exact Option.noConfusion h
      have h' : (rest.find? (fun q => q.1 == k)) = none := by
        rw [List.find?_cons_of_neg (p := fun r : String × String => r.1 == k) rest hk] at h
        exact h
      have hrec := ih h'
      simp only [dictGet] at hrec ⊢
      rw [List.cons_append, List.find?_cons_of_neg (p := fun r : String × String => r.1 == k) _ hk]
      exact hrec

lemma dictGet_dictSet_self (d : Dict) (k v : String) :
    dictGet (dictSet d k v) k = some v := by
  unfold dictSet
  by_cases h : (d.find? (fun q => q.1 == k)).isSome = true
  · rw [if_pos h]
    exact dictGet_map_set d k v h
  · have hnone : d.find? (fun q => q.1 == k) = none :=
      Option.not_isSome_iff_eq_none.mp h
    rw [if_neg h]
    exact dictGet_append_last d k v hnone

/-- C10: `_make_request` mutates the caller's `params` dict in place,
inserting the API credential under `"apikey"`; after the call returns —
whatever the outcomes of the attempts were — the caller's dict is exactly
the original dict with that binding set, and looking up `"apikey"` in it
yields the credential. -/
theorem params_apikey_inserted (apiKey : String) (params : Dict)
    (outcomes : Nat → AttemptOutcome) (rlWaits : Nat → Nat) :
    (make_request apiKey params outcomes rlWaits).params =
      dictSet params "apikey" apiKey ∧
    dictGet (make_request apiKey params outcomes rlWaits).params "apikey" =
      some apiKey := by
  refine ⟨rfl, ?_⟩
  rw [show (make_request apiKey params outcomes rlWaits).params =
    dictSet params "apikey" apiKey from rfl]
  exact dictGet_dictSet_self params "apikey" apiKey

/-! ## Proofs about the pipeline -/

/-- C6: upserting the same ticker twice (entity absent beforehand) leaves
exactly one stored row for that ticker, carrying the latest name, sector
and market cap, and both calls return the id assigned at the first
insert. -/
theorem load_stock_upsert (db : DB) (s1 s2 : Stock)
    (ht : s1.ticker = s2.ticker)
    (hfresh : db.rows.countP (fun r => r.ticker == s1.ticker) = 0) :
    (load_stock db s1).1 = some db.nextId ∧
    (load_stock (load_stock db s1).2 s2).1 = some db.nextId ∧
    ((load_stock (load_stock db s1).2 s2).2).rows.filter
        (fun r => r.ticker == s2.ticker) =
      [⟨db.nextId, s2.ticker, s2.name, s2.sector, s2.market_cap⟩] := by
  have hall : ∀ r ∈ db.rows, ¬ (r.ticker == s1.ticker) = true :=
    List.countP_eq_zero.mp hfresh
  have hmem2 : ∀ r ∈ db.rows, ¬ (r.ticker == s2.ticker) = true := by
    intro r hr
    rw [← ht]
    exact hall r hr
  have hfind1 : db.rows.find? (fun r => r.ticker == s1.ticker) = none :=
    List.find?_eq_none.mpr hall
  have hload1 : load_stock db s1 =
      (some db.nextId,
        { rows := db.rows ++ [⟨db.nextId, s1.ticker, s1.name, s1.sector, s1.market_cap⟩]
          nextId := db.nextId + 1 }) := by
    simp [load_stock, hfind1]
  have hfind2 : (db.rows ++
        [(⟨db.nextId, s1.ticker, s1.name, s1.sector, s1.market_cap⟩ : StockRow)]).find?
        (fun r => r.ticker == s2.ticker) =
      some ⟨db.nextId, s1.ticker, s1.name, s1.sector, s1.market_cap⟩ := by
    rw [List.find?_append, List.find?_eq_none.mpr hmem2]
    simp [ht]
  refine ⟨by rw [hload1], ?_, ?_⟩
  · rw [hload1]
    simp [load_stock, hfind2]
  · rw [hload1]
    simp only [load_stock, hfind2]
    rw [List.map_append, List.filter_append]
    have hleft : (db.rows.map (fun r =>
        if r.id == db.nextId then
          { r with name := s2.name, sector := s2.sector, market_cap := s2.market_cap }
        else r)).filter (fun r => r.ticker == s2.ticker) = [] := by
      rw [List.filter_eq_nil_iff]
      intro a ha
      obtain ⟨r, hr, rfl⟩ := List.mem_map.mp ha
      by_cases hid : (r.id == db.nextId) = true
      · rw [if_pos hid]
        exact hmem2 r hr
      · rw [if_neg hid]
        exact hmem2 r hr
    rw [hleft]
    simp [ht]

/-- Witness for C6: one unrelated row in the store, then two upserts of
the same ticker with different attributes. -/
theorem load_stock_upsert_witness :
    ((⟨"AAPL", "Apple", some "Tech", some 1⟩ : Stock).ticker =
      (⟨"AAPL", "Apple Inc.", some "Technology", some 2⟩ : Stock).ticker) ∧
    ((⟨[⟨7, "MSFT", "Microsoft", none, none⟩], 8⟩ : DB)).rows.countP
      (fun r => r.ticker == (⟨"AAPL", "Apple", some "Tech", some 1⟩ : Stock).ticker) = 0 ∧
    ((load_stock ⟨[⟨7, "MSFT", "Microsoft", none, none⟩], 8⟩
        ⟨"AAPL", "Apple", some "Tech", some 1⟩).1 = some 8 ∧
      (load_stock (load_stock ⟨[⟨7, "MSFT", "Microsoft", none, none⟩], 8⟩
          ⟨"AAPL", "Apple", some "Tech", some 1⟩).2
        ⟨"AAPL", "Apple Inc.", some "Technology", some 2⟩).1 = some 8 ∧
      ((load_stock (load_stock ⟨[⟨7, "MSFT", "Microsoft", none, none⟩], 8⟩
          ⟨"AAPL", "Apple", some "Tech", some 1⟩).2
        ⟨"AAPL", "Apple Inc.", some "Technology", some 2⟩).2).rows.filter
        (fun r => r.ticker == (⟨"AAPL", "Apple Inc.", some "Technology", some 2⟩ : Stock).ticker) =
      [⟨8, "AAPL", "Apple Inc.", some "Technology", some 2⟩]) :=
  ⟨rfl, by decide,
    load_stock_upsert ⟨[⟨7, "MSFT", "Microsoft", none, none⟩], 8⟩
      ⟨"AAPL", "Apple", some "Tech", some 1⟩
      ⟨"AAPL", "Apple Inc.", some "Technology", some 2⟩ rfl (by decide)⟩

/-- C7 counterexample: a payload with no `"MarketCapitalization"` key maps
to market cap `0` (the `.get` default string `"0"` parsed by `int`), not to
null as the claim states. -/
theorem transform_stock_missing_cap_counterexample :
    transform_stock "AAPL" (some [("Name", "Apple Inc.")]) =
      some ⟨"AAPL", "Apple Inc.", none, some 0⟩ ∧
    transform_stock "AAPL" (some [("Name", "Apple Inc.")]) ≠
      some ⟨"AAPL", "Apple Inc.", none, none⟩ := by
  refine ⟨by decide, by decide⟩

/-- C7 amended: a missing market-cap key defaults to market cap `0`; only
an empty-string market-cap value maps to null; the record name always
defaults to the symbol when `"Name"` is absent. -/
theorem transform_stock_defaults (symbol : String) (d : Dict)
    (hne : d.isEmpty = false) :
    (dictGet d "MarketCapitalization" = none →
      transform_stock symbol (some d) =
        some ⟨symbol, (dictGet d "Name").getD symbol, dictGet d "Sector", some 0⟩) ∧
    (dictGet d "MarketCapitalization" = some "" →
      transform_stock symbol (some d) =
        some ⟨symbol, (dictGet d "Name").getD symbol, dictGet d "Sector", none⟩) ∧
    (∀ st, transform_stock symbol (some d) = some st →
      st.name = (dictGet d "Name").getD symbol) := by
  have h0 : pyInt "0" = some 0 := by decide
  refine ⟨?_, ?_, ?_⟩
  · intro h
    simp [transform_stock, hne, h, h0]
  · intro h
    simp [transform_stock, hne, h]
  · intro st hst
    simp only [transform_stock, hne, Bool.false_eq_true, if_false] at hst
    split at hst
    · cases hst
      rfl
    · split at hst
      · cases hst
        rfl
      · exact Option.noConfusion hst

/-- Witness for C7's amended theorem on a payload with only a name. -/
theorem transform_stock_defaults_witness :
    (([("Name", "Apple Inc.")] : Dict).isEmpty = false) ∧
    ((dictGet [("Name", "Apple Inc.")] "MarketCapitalization" = none →
      transform_stock "AAPL" (some [("Name", "Apple Inc.")]) =
        some ⟨"AAPL", (dictGet [("Name", "Apple Inc.")] "Name").getD "AAPL",
          dictGet [("Name", "Apple Inc.")] "Sector", some 0⟩) ∧
    (dictGet [("Name", "Apple Inc.")] "MarketCapitalization" = some "" →
      transform_stock "AAPL" (some [("Name", "Apple Inc.")]) =
        some ⟨"AAPL", (dictGet [("Name", "Apple Inc.")] "Name").getD "AAPL",
          dictGet [("Name", "Apple Inc.")] "Sector", none⟩) ∧
    (∀ st, transform_stock "AAPL" (some [("Name", "Apple Inc.")]) = some st →
      st.name = (dictGet [("Name", "Apple Inc.")] "Name").getD "AAPL")) :=
  ⟨rfl, transform_stock_defaults "AAPL" [("Name", "Apple Inc.")] rfl⟩

/-- C8 counterexample: `"RevenueTTM": "None"` makes `int(...)` raise, the
whole record is dropped (`transform_fundamental` returns `None`), instead
of that field being mapped to null. -/
theorem transform_fundamental_none_counterexample :
    transform_fundamental 1 (some [("RevenueTTM", "None"), ("EPS", "2.5")])
      2026 10 0 = none := by
  decide

/-- C8 amended: only `eps`, `pe_ratio` and `debt_to_equity` go through the
parse-or-null helper (empty string, `"None"`, or an invalid literal become
null without failing the record); `revenue` and `net_income` map a missing
key or empty string to 0, and any other unparsable value — such as the
string `"None"` — fails the whole record. -/
theorem transform_fundamental_parse_or_null (stock_id : Int) (d : Dict)
    (year month : Nat) (now : ℚ) (hne : d.isEmpty = false) :
    (dictGet d "RevenueTTM" = some "None" →
      transform_fundamental stock_id (some d) year month now = none) ∧
    (∀ rev ni, intOrZeroField d "RevenueTTM" = some rev →
      intOrZeroField d "GrossProfitTTM" = some ni →
      transform_fundamental stock_id (some d) year month now =
        some ⟨stock_id, toString year ++ "-Q" ++ toString ((month - 1) / 3 + 1),
          rev, ni, safe_float (dictGet d "EPS"), safe_float (dictGet d "PERatio"),
          safe_float (dictGet d "DebtToEquityRatio"), now⟩) ∧
    (∀ s, (s = "" ∨ s = "None" ∨ pyFloat s = none) →
      safe_float (some s) = none) := by
  have hpy : pyInt "None" = none := by decide
  refine ⟨?_, ?_, ?_⟩
  · intro h
    simp [transform_fundamental, hne, intOrZeroField, h, hpy]
  · intro rev ni h1 h2
    simp [transform_fundamental, hne, h1, h2]
  · intro s hs
    rcases hs with rfl | rfl | hf
    · simp [safe_float]
    · simp [safe_float]
    · by_cases h1 : s = ""
      · simp [safe_float, h1]
      · by_cases h2 : s = "None"
        · simp [safe_float, h2]
        · simp [safe_float, h1, h2, hf]

/-- Witness for C8's amended theorem on a payload with a valid revenue, an
empty gross profit, and `"None"` for EPS. -/
theorem transform_fundamental_parse_or_null_witness :
    (([("RevenueTTM", "100"), ("GrossProfitTTM", ""), ("EPS", "None")] : Dict).isEmpty
      = false) ∧
    ((dictGet [("RevenueTTM", "100"), ("GrossProfitTTM", ""), ("EPS", "None")]
        "RevenueTTM" = some "None" →
      transform_fundamental 1
        (some [("RevenueTTM", "100"), ("GrossProfitTTM", ""), ("EPS", "None")])
        2026 10 0 = none) ∧
    (∀ rev ni, intOrZeroField
        [("RevenueTTM", "100"), ("GrossProfitTTM", ""), ("EPS", "None")]
        "RevenueTTM" = some rev →
      intOrZeroField [("RevenueTTM", "100"), ("GrossProfitTTM", ""), ("EPS", "None")]
        "GrossProfitTTM" = some ni →
      transform_fundamental 1
        (some [("RevenueTTM", "100"), ("GrossProfitTTM", ""), ("EPS", "None")])
        2026 10 0 =
        some ⟨1, toString 2026 ++ "-Q" ++ toString ((10 - 1) / 3 + 1), rev, ni,
          safe_float (dictGet
            [("RevenueTTM", "100"), ("GrossProfitTTM", ""), ("EPS", "None")] "EPS"),
          safe_float (dictGet
            [("RevenueTTM", "100"), ("GrossProfitTTM", ""), ("EPS", "None")] "PERatio"),
          safe_float (dictGet
            [("RevenueTTM", "100"), ("GrossProfitTTM", ""), ("EPS", "None")]
            "DebtToEquityRatio"), 0⟩) ∧
    (∀ s, (s = "" ∨ s = "None" ∨ pyFloat s = none) →
      safe_float (some s) = none)) :=
  ⟨rfl, transform_fundamental_parse_or_null 1
    [("RevenueTTM", "100"), ("GrossProfitTTM", ""), ("EPS", "None")] 2026 10 0 rfl⟩

lemma runLoop_perm (proc : String → Except String Bool) :
    ∀ (syms : List String) (acc : RunResults),
      List.Perm ((runLoop proc acc syms).success ++ (runLoop proc acc syms).failed)
        (acc.success ++ acc.failed ++ syms) := by
  intro syms
  induction syms with
  | nil =>
      intro acc
      simp [runLoop]
  | cons s rest ih =>
      intro acc
      refine (ih (runStep proc acc s)).trans ?_
      rw [List.perm_iff_count]
      intro a
      cases hp : proc s.toUpper with
      | ok b =>
          cases b <;>
            (simp [runStep, hp, List.count_append, List.count_cons];
              try split_ifs <;> omega)
      | error e =>
          simp [runStep, hp, List.count_append, List.count_cons]

/-- C9: the batch loop of `run` is total (no exception escapes), every
input symbol ends up in exactly one of the two report lists (their
concatenation is a permutation of the input), the reported counts add up
to the input length, and a symbol whose processing raises is recorded as
failed. -/
theorem run_reports_all (proc : String → Except String Bool)
    (symbols : List String) :
    List.Perm ((run proc symbols).success ++ (run proc symbols).failed) symbols ∧
    (run proc symbols).success.length + (run proc symbols).failed.length =
      symbols.length ∧
    (∀ acc sym e, proc sym.toUpper = .error e →
      runStep proc acc sym = { acc with failed := acc.failed ++ [sym] }) := by
  have h := runLoop_perm proc symbols ⟨[], []⟩
  simp only [List.nil_append] at h
  refine ⟨h, ?_, ?_⟩
  · have hlen := h.length_eq
    simpa [List.length_append] using hlen
  · intro acc sym e he
    simp [runStep, he]

/-- Witness for C9: three symbols; one fails, one raises, one succeeds. -/
theorem run_reports_all_witness :
    List.Perm ((run (fun sym => if sym = "A" then .ok true
        else if sym = "B" then .ok false else .error "boom")
        ["a", "b", "c"]).success ++
      (run (fun sym => if sym = "A" then .ok true
        else if sym = "B" then .ok false else .error "boom")
        ["a", "b", "c"]).failed) ["a", "b", "c"] ∧
    (run (fun sym => if sym = "A" then .ok true
        else if sym = "B" then .ok false else .error "boom")
        ["a", "b", "c"]).success.length +
      (run (fun sym => if sym = "A" then .ok true
        else if sym = "B" then .ok false else .error "boom")
        ["a", "b", "c"]).failed.length = (["a", "b", "c"] : List String).length ∧
    (∀ acc sym e, (fun sym => if sym = "A" then Except.ok true
        else if sym = "B" then Except.ok false else Except.error "boom")
          sym.toUpper = .error e →
      runStep (fun sym => if sym = "A" then .ok true
        else if sym = "B" then .ok false else .error "boom") acc sym =
        { acc with failed := acc.failed ++ [sym] }) :=
  run_reports_all
    (fun sym => if sym = "A" then .ok true
      else if sym = "B" then .ok false else .error "boom") ["a", "b", "c"]

end RoaringKitty
